import Mathlib

/-!
Shallow embedding of the looper repository (src/converter.py and src/main.py).

An audio buffer is modelled as a list of rational amplitudes, one frame per
millisecond, so `List.length` is the duration in milliseconds.  The pydub
primitives `AudioSegment.append` (crossfade-combine) and millisecond slicing
are embedded below; the two `loop_song` variants are embedded as
`converterLoopSong` (src/converter.py) and `mainLoopSong` (src/main.py).
The chunk-building loop of src/main.py is modelled with explicit fuel, so a
`none` result means the loop has not finished within the given number of
iterations (for any amount of fuel: the loop does not terminate).
-/

/-- Errors that the embedded code can raise.  src/converter.py wraps every
exception into a RuntimeError; the constructors record the original cause.
`invalidCrossfade` is pydub's ValueError for a crossfade longer than an
operand, `zeroDivision` is Python's ZeroDivisionError from
`int(target_ms / effective_duration)` when `effective_duration == 0`. -/
inductive LoopError where
  | invalidCrossfade : LoopError
  | zeroDivision : LoopError
deriving DecidableEq

/-- Modelled from the spec (section 4.1) and pydub's `AudioSegment.append`
overlap window, which is a dependency and not part of src/: the linear-gain
cross-mix of the tail of the first operand with the head of the second.  At
offset `t` into the overlap the output amplitude is
`tail t * (1 - t/c) + head t * (t/c)`. -/
def crossMix (tail head : List ℚ) (c : ℕ) : List ℚ :=
  (List.zip tail head).enum.map
    (fun p => p.2.1 * (1 - (p.1 : ℚ) / (c : ℚ)) + p.2.2 * ((p.1 : ℚ) / (c : ℚ)))

/-- Modelled from the spec (section 4.1 `combine`) and pydub's
`AudioSegment.append(seg, crossfade)`, a dependency not present in src/:
it raises ValueError when the crossfade exceeds either operand's duration,
and otherwise concatenates the untouched prefix of `a`, the cross-mixed
overlap window, and the untouched suffix of `b`. -/
def pydubAppend (a b : List ℚ) (c : ℕ) : Except LoopError (List ℚ) :=
  if a.length < c then .error .invalidCrossfade
  else if b.length < c then .error .invalidCrossfade
  else .ok (a.take (a.length - c) ++ crossMix (a.drop (a.length - c)) (b.take c) c ++ b.drop c)

/-- `appendChain base unit c n` performs `n` successive crossfade-appends of
`unit` onto an accumulator that starts as `base`, exactly like the loop
`for i in range(n): final_audio = final_audio.append(audio, crossfade)` in
src/converter.py (and the 9-append chunk construction of src/main.py).
It returns the final accumulator together with the number of combine
operations actually executed. -/
def appendChain (base unit : List ℚ) (c : ℕ) : ℕ → Except LoopError (List ℚ × ℕ)
  | 0 => .ok (base, 0)
  | n + 1 =>
    match appendChain base unit c n with
    | .error e => .error e
    | .ok (cur, k) =>
      match pydubAppend cur unit c with
      | .error e => .error e
      | .ok nxt => .ok (nxt, k + 1)

/-- Python slice-stop semantics for `a[:m]` at millisecond resolution, as
used by pydub slicing: a negative stop counts from the end of the buffer
(clamped at 0), a non-negative stop is used directly. -/
def pySliceStop (len : ℕ) (m : ℤ) : ℕ :=
  (if m < 0 then (len : ℤ) + m else m).toNat

/-- The trim step of src/converter.py, lines 74-76:
`if len(final_audio) > target_ms: final_audio = final_audio[:target_ms]`.
Slicing never raises; a negative bound follows Python slice semantics. -/
def convTrim (a : List ℚ) (m : ℤ) : List ℚ :=
  if m < (a.length : ℤ) then a.take (pySliceStop a.length m) else a

/-- The core of `loop_song` in src/converter.py, lines 60-76, with
`targetMs = target_duration*1000` and `crossfadeMs = crossfade_duration*1000`
in milliseconds.  `effective = d0 - crossfadeMs` (in ℤ, matching Python
ints), `num_loops = max(1, int(targetMs/effective) + 1)` with Python's
`int(...)` truncation toward zero modelled by `Int.div`; when `effective`
is zero the division raises (wrapped by the converter into a RuntimeError).
Then `num_loops - 1` crossfade-appends run and the result is trimmed.
Returns the final buffer together with the number of combine operations
performed. -/
def converterLoopSong (audio : List ℚ) (targetMs crossfadeMs : ℕ) :
    Except LoopError (List ℚ × ℕ) :=
  let d0 := audio.length
  let effective : ℤ := (d0 : ℤ) - (crossfadeMs : ℤ)
  if effective = 0 then .error .zeroDivision
  else
    let numLoops : ℤ := max 1 (((targetMs : ℤ).tdiv effective) + 1)
    match appendChain audio audio crossfadeMs (numLoops - 1).toNat with
    | .error e => .error e
    | .ok (buf, n) => .ok (convTrim buf (targetMs : ℤ), n)

/-- One iteration of the chunk-selection loop of src/main.py, lines 70-74:
`duration = chunk_duration * i`, and the running best is replaced when
`duration <= target_ms and duration > best_duration`. -/
def mainSelectStep (chunks : List ℕ) (cd : ℤ) (targetMs : ℕ)
    (st : ℤ × List ℕ) (i : ℕ) : ℤ × List ℕ :=
  if cd * (i : ℤ) ≤ (targetMs : ℤ) ∧ st.1 < cd * (i : ℤ) then
    (cd * (i : ℤ), chunks.take i)
  else st

/-- The chunk-selection loop of src/main.py, lines 62-76: it iterates
`i = 1 .. len(chunks)` with `chunk_duration = chunk_size - crossfade_ms`,
and keeps the prefix `chunks[:i]` with the largest duration
`chunk_duration * i` that does not exceed `target_ms`. -/
def mainSelect (chunks : List ℕ) (chunkSize c targetMs : ℕ) : List ℕ :=
  ((List.range' 1 chunks.length).foldl
    (mainSelectStep chunks ((chunkSize : ℤ) - (c : ℤ)) targetMs)
    ((0 : ℤ), ([] : List ℕ))).2

/-- The chunk-building `while` loop of src/main.py, lines 47-61, with fuel.
State: the list of chunk files on disk, the `chunks` variable, and the next
chunk number.  Each iteration tests `len(current_audio) < target_ms`, builds
a chunk with nine crossfade-appends of the source onto the source, exports
it, records it, and resets `current_audio = audio` — so the tested length is
`audio.length` on every iteration.  `none` means the fuel ran out with the
loop still running; `some (err?, disk, chunks)` means the loop finished,
either normally (`err? = none`) or by raising (`err? = some e`). -/
def mainBuildChunks (audio : List ℚ) (targetMs c : ℕ) :
    ℕ → List ℕ → List ℕ → ℕ → Option (Option LoopError × List ℕ × List ℕ)
  | 0, _, _, _ => none
  | fuel + 1, disk, chunks, num =>
    if audio.length < targetMs then
      match appendChain audio audio c 9 with
      | .error e => some (some e, disk, chunks)
      | .ok _ => mainBuildChunks audio targetMs c fuel (disk ++ [num]) (chunks ++ [num]) (num + 1)
    else
      some (none, disk, chunks)

/-- The stitching loop of src/main.py, lines 79-83: starting from the first
selected chunk, crossfade-append each remaining selected chunk.  Every chunk
holds the same audio (the source plus nine crossfade-appends of itself). -/
def mainStitch (chunkAudio : List ℚ) (c : ℕ) (rest : List ℕ) :
    Except LoopError (List ℚ) :=
  rest.foldlM (fun acc _ => pydubAppend acc chunkAudio c) chunkAudio

/-- The cleanup loops of src/main.py (lines 86-89 on success, 102-106 on
failure): `os.remove` each file named in the `chunks` variable, ignoring
failures.  Returns the files left on disk. -/
def cleanupDisk (disk chunks : List ℕ) : List ℕ :=
  disk.filter (fun f => !(chunks.contains f))

/-- Outcome of one invocation of src/main.py's `loop_song`: the boolean the
function returns, the exported audio if any, and the temporary chunk files
still on disk when the function returns. -/
structure MainResult where
  ok : Bool
  output : Option (List ℚ)
  disk : List ℕ
deriving DecidableEq

/-- `loop_song` of src/main.py, lines 12-107, with fuel for the
chunk-building loop.  After building chunks it selects the best prefix;
`best_chunks[0]` on an empty selection raises IndexError, caught by the
broad `except` which cleans up and returns False.  On the success path the
chunks are cleaned up and the stitched audio exported (export modelled as
succeeding), returning True.  `none` means the invocation never returns. -/
def mainLoopSong (audio : List ℚ) (targetMs c : ℕ) (fuel : ℕ) :
    Option MainResult :=
  match mainBuildChunks audio targetMs c fuel [] [] 1 with
  | none => none
  | some (some _, disk, chunks) => some ⟨false, none, cleanupDisk disk chunks⟩
  | some (none, disk, chunks) =>
    match mainSelect chunks (audio.length * 10) c targetMs with
    | [] => some ⟨false, none, cleanupDisk disk chunks⟩
    | _ :: rest =>
      match appendChain audio audio c 9 with
      | .error _ => some ⟨false, none, cleanupDisk disk chunks⟩
      | .ok (chunkAudio, _) =>
        match mainStitch chunkAudio c rest with
        | .error _ => some ⟨false, none, cleanupDisk disk chunks⟩
        | .ok final => some ⟨true, some final, cleanupDisk disk chunks⟩

/-- Cumulative effective duration of a prefix of `k` chunks as the claim
states it: the first chunk contributes its full duration `chunkDur`, every
later chunk contributes `chunkDur - c`. -/
def cumulativeEffective (chunkDur c : ℕ) : ℕ → ℕ
  | 0 => 0
  | k + 1 => chunkDur + k * (chunkDur - c)

/-- Chunk selection as the claim describes it (for comparison with
`mainSelect`, which embeds the source): pick the prefix of chunks whose
cumulative effective duration (`chunkDur - c` per chunk after the first) is
the largest value not exceeding the target. -/
def claimSelect (chunks : List ℕ) (chunkDur c targetMs : ℕ) : List ℕ :=
  ((List.range (chunks.length + 1)).foldl
    (fun st k =>
      if cumulativeEffective chunkDur c k ≤ targetMs ∧
          st.1 < cumulativeEffective chunkDur c k then
        (cumulativeEffective chunkDur c k, chunks.take k)
      else st)
    ((0 : ℕ), ([] : List ℕ))).2

/-! ### Helper lemmas about the primitives -/

theorem crossMix_length (t h : List ℚ) (c : ℕ) :
    (crossMix t h c).length = min t.length h.length := by
  simp [crossMix]

theorem pydubAppend_ok (a b : List ℚ) (c : ℕ)
    (ha : c ≤ a.length) (hb : c ≤ b.length) :
    ∃ out, pydubAppend a b c = .ok out ∧
      out.length = a.length + b.length - c := by
  refine ⟨a.take (a.length - c) ++ crossMix (a.drop (a.length - c)) (b.take c) c ++ b.drop c,
    ?_, ?_⟩
  · rw [pydubAppend, if_neg (by omega), if_neg (by omega)]
  · simp only [List.length_append, List.length_take, crossMix_length,
      List.length_drop]
    omega

theorem appendChain_ok (base unit : List ℚ) (c : ℕ)
    (hb : c ≤ base.length) (hu : c ≤ unit.length) :
    ∀ n, ∃ buf, appendChain base unit c n = .ok (buf, n) ∧
      buf.length = base.length + n * (unit.length - c) := by
  intro n
  induction n with
  | zero => exact ⟨base, rfl, by simp⟩
  | succ n ih =>
    obtain ⟨buf, hbuf, hlen⟩ := ih
    have hc : c ≤ buf.length := by
      rw [hlen]; exact le_trans hb (Nat.le_add_right _ _)
    obtain ⟨out, hout, holen⟩ := pydubAppend_ok buf unit c hc hu
    refine ⟨out, ?_, ?_⟩
    · simp [appendChain, hbuf, hout]
    · rw [holen, hlen, Nat.succ_mul]
      omega

theorem appendChain_stuck (base unit : List ℚ) (c : ℕ)
    (hb : base.length < c) :
    ∀ n, appendChain base unit c (n + 1) = .error .invalidCrossfade := by
  intro n
  induction n with
  | zero => simp [appendChain, pydubAppend, hb]
  | succ n ih =>
    show (match appendChain base unit c (n + 1) with
      | Except.error e => Except.error e
      | Except.ok (cur, k) =>
        match pydubAppend cur unit c with
        | Except.error e => Except.error e
        | Except.ok nxt => Except.ok (nxt, k + 1)) =
      Except.error LoopError.invalidCrossfade
    rw [ih]

/-! ### Behaviour of src/converter.py's loop_song -/

theorem converter_ok (audio : List ℚ) (targetMs c : ℕ) (h : c < audio.length) :
    ∃ buf, converterLoopSong audio targetMs c =
        .ok (buf, targetMs / (audio.length - c)) ∧ buf.length = targetMs := by
  have hne : ((audio.length : ℤ) - (c : ℤ)) ≠ 0 := by omega
  have he : 0 < audio.length - c := by omega
  set q := targetMs / (audio.length - c) with hqdef
  have hq : (targetMs : ℤ).tdiv ((audio.length : ℤ) - (c : ℤ)) = ((q : ℕ) : ℤ) := by
    have hcast : ((audio.length : ℤ) - (c : ℤ)) = ((audio.length - c : ℕ) : ℤ) := by
      omega
    rw [hcast, hqdef]
    exact (Int.ofNat_tdiv _ _).symm
  have hmax : max (1 : ℤ) (((q : ℕ) : ℤ) + 1) = ((q : ℕ) : ℤ) + 1 :=
    max_eq_right (by linarith [Int.natCast_nonneg q])
  have htoNat : ((((q : ℕ) : ℤ) + 1) - 1).toNat = q := by simp
  obtain ⟨buf, hbuf, hlen⟩ := appendChain_ok audio audio c h.le h.le q
  have key : targetMs < buf.length := by
    have h1 : (audio.length - c) * q + targetMs % (audio.length - c) = targetMs := by
      rw [hqdef]; exact Nat.div_add_mod _ _
    have h2 : targetMs % (audio.length - c) < audio.length - c := Nat.mod_lt _ he
    have hlen2 : buf.length = audio.length + (audio.length - c) * q := by
      rw [hlen, Nat.mul_comm]
    generalize hA : (audio.length - c) * q = A at h1 hlen2
    generalize hr : targetMs % (audio.length - c) = r at h1 h2
    omega
  refine ⟨convTrim buf (targetMs : ℤ), ?_, ?_⟩
  · unfold converterLoopSong
    simp only [if_neg hne, hq, hmax, htoNat, hbuf]
  · rw [convTrim, if_pos (by exact_mod_cast key), pySliceStop,
      if_neg (by omega)]
    simp only [Int.toNat_natCast, List.length_take]
    omega

theorem converter_degenerate (audio : List ℚ) (targetMs c : ℕ)
    (h : audio.length < c) :
    converterLoopSong audio targetMs c = .ok (convTrim audio (targetMs : ℤ), 0) := by
  have hne : ((audio.length : ℤ) - (c : ℤ)) ≠ 0 := by omega
  have hneg : ((audio.length : ℤ) - (c : ℤ)) ≤ 0 := by omega
  have hq : (targetMs : ℤ).tdiv ((audio.length : ℤ) - (c : ℤ)) ≤ 0 :=
    Int.tdiv_nonpos (by omega) hneg
  have hmax : max (1 : ℤ)
      ((targetMs : ℤ).tdiv ((audio.length : ℤ) - (c : ℤ)) + 1) = 1 :=
    max_eq_left (by omega)
  unfold converterLoopSong
  simp only [if_neg hne, hmax]
  norm_num [appendChain]

theorem converter_zeroDivision (audio : List ℚ) (targetMs c : ℕ)
    (h : audio.length = c) :
    converterLoopSong audio targetMs c = .error .zeroDivision := by
  simp [converterLoopSong, h]

/-! ### Behaviour of src/main.py's loop_song -/

theorem mainBuildChunks_spin (audio : List ℚ) (targetMs c : ℕ)
    (hT : audio.length < targetMs) (hc : c ≤ audio.length) :
    ∀ fuel disk chunks num,
      mainBuildChunks audio targetMs c fuel disk chunks num = none := by
  intro fuel
  induction fuel with
  | zero => intro disk chunks num; rfl
  | succ n ih =>
    intro disk chunks num
    obtain ⟨buf, hbuf, _⟩ := appendChain_ok audio audio c hc hc 9
    simp [mainBuildChunks, hT, hbuf, ih]

theorem mainLoopSong_disk (audio : List ℚ) (targetMs c fuel : ℕ) (r : MainResult)
    (hr : mainLoopSong audio targetMs c fuel = some r) : r.disk = [] := by
  rcases fuel with _ | n
  · simp [mainLoopSong, mainBuildChunks] at hr
  · by_cases hT : audio.length < targetMs
    · by_cases hc : c ≤ audio.length
      · rw [mainLoopSong, mainBuildChunks_spin audio targetMs c hT hc (n + 1) [] [] 1] at hr
        simp at hr
      · push_neg at hc
        have h9 : appendChain audio audio c 9 = .error .invalidCrossfade :=
          appendChain_stuck audio audio c hc 8
        have hval : mainLoopSong audio targetMs c (n + 1) = some ⟨false, none, []⟩ := by
          simp [mainLoopSong, mainBuildChunks, hT, h9, cleanupDisk]
        rw [hval] at hr
        obtain rfl := Option.some.inj hr
        rfl
    · have hval : mainLoopSong audio targetMs c (n + 1) = some ⟨false, none, []⟩ := by
        simp [mainLoopSong, mainBuildChunks, hT, mainSelect, cleanupDisk]
      rw [hval] at hr
      obtain rfl := Option.some.inj hr
      rfl

/-! ### Closed form of the chunk-selection loop -/

theorem mainSelectStep_fold (chunks : List ℕ) (e targetMs : ℕ) (he : 0 < e) :
    ∀ j, (List.range' 1 j).foldl (mainSelectStep chunks ((e : ℕ) : ℤ) targetMs)
        ((0 : ℤ), ([] : List ℕ)) =
      ((e : ℤ) * ((min j (targetMs / e) : ℕ) : ℤ),
        chunks.take (min j (targetMs / e))) := by
  intro j
  induction j with
  | zero => simp
  | succ j ih =>
    have hrange : List.range' 1 (j + 1) = List.range' 1 j ++ [1 + 1 * j] :=
      List.range'_concat 1 j
    have hj1 : 1 + 1 * j = j + 1 := by omega
    rw [hrange, hj1, List.foldl_append, ih, List.foldl_cons, List.foldl_nil]
    simp only [mainSelectStep]
    by_cases hcase : j + 1 ≤ targetMs / e
    · have hmin1 : min j (targetMs / e) = j := by omega
      have hmin2 : min (j + 1) (targetMs / e) = j + 1 := by omega
      have hc1 : ((e : ℕ) : ℤ) * ((j + 1 : ℕ) : ℤ) ≤ ((targetMs : ℕ) : ℤ) := by
        have hnat : e * (j + 1) ≤ targetMs := by
          have h2 := (Nat.le_div_iff_mul_le he).mp hcase
          rwa [Nat.mul_comm] at h2
        exact_mod_cast hnat
      have hc2 : (e : ℤ) * ((min j (targetMs / e) : ℕ) : ℤ) <
          (e : ℤ) * ((j + 1 : ℕ) : ℤ) := by
        rw [hmin1]
        have hlt : ((j : ℕ) : ℤ) < ((j + 1 : ℕ) : ℤ) := by exact_mod_cast Nat.lt_succ_self j
        exact mul_lt_mul_of_pos_left hlt (by exact_mod_cast he)
      rw [if_pos ⟨hc1, hc2⟩, hmin2]
    · have hmin12 : min (j + 1) (targetMs / e) = min j (targetMs / e) := by omega
      have hc1 : ¬ ((e : ℕ) : ℤ) * ((j + 1 : ℕ) : ℤ) ≤ ((targetMs : ℕ) : ℤ) := by
        intro hI
        have hnat : e * (j + 1) ≤ targetMs := by exact_mod_cast hI
        have : j + 1 ≤ targetMs / e :=
          (Nat.le_div_iff_mul_le he).mpr (by rwa [Nat.mul_comm] at hnat)
        omega
      rw [if_neg (fun hand => hc1 hand.1), hmin12]

theorem mainSelect_closed (chunks : List ℕ) (chunkSize c targetMs : ℕ)
    (h : c < chunkSize) :
    mainSelect chunks chunkSize c targetMs =
      chunks.take (min chunks.length (targetMs / (chunkSize - c))) := by
  have hcast : ((chunkSize : ℤ) - (c : ℤ)) = ((chunkSize - c : ℕ) : ℤ) := by omega
  rw [mainSelect, hcast, mainSelectStep_fold chunks (chunkSize - c) targetMs (by omega)]

/-! ### Claim C1: duration contract -/

/-- Claim C1 (amended): for src/converter.py's loop_song the duration
contract holds in the strong form `duration(output) = targetMs` for every
valid input `0 ≤ crossfade < d0`, `targetMs ≥ 0` — the reachable upper bound
is never the binding term.  (src/main.py's variant violates the contract,
see the counterexample: for `targetMs = d0` it fails instead of producing a
buffer of duration `targetMs`.) -/
theorem claim1_duration (audio : List ℚ) (targetMs c : ℕ) (h : c < audio.length) :
    ∃ buf n, converterLoopSong audio targetMs c = .ok (buf, n) ∧
      buf.length = targetMs := by
  obtain ⟨buf, hbuf, hlen⟩ := converter_ok audio targetMs c h
  exact ⟨buf, targetMs / (audio.length - c), hbuf, hlen⟩

/-- Claim C1 witness: a concrete valid input on which the converter reaches
the target exactly. -/
theorem claim1_witness :
    ∃ buf n, converterLoopSong [(0 : ℚ), 0, 0] 7 1 = .ok (buf, n) ∧
      buf.length = 7 :=
  claim1_duration [(0 : ℚ), 0, 0] 7 1 (by decide)

/-- Claim C1 counterexample: src/main.py's loop_song on the valid input
`d0 = 2 ms, crossfade = 1 ms, targetMs = 2 ms` (so `targetMs ≥ d0`, where the
claim promises output duration exactly `targetMs`) returns failure with no
output: its chunk list is empty, so `best_chunks[0]` raises IndexError and
the broad except returns False.  (The chunk-building loop exits immediately
regardless of fuel, so fuel 3 is not the limiting factor.) -/
theorem claim1_counterexample :
    mainLoopSong [(0 : ℚ), 0] 2 1 3 = some ⟨false, none, []⟩ := by
  rfl

/-! ### Claim C2: termination and bounded work -/

/-- Claim C2: the claim asserts termination with a bounded number of combine
operations for every valid input, well under 20 combines in the concrete
scenario `d0 = 200000 ms`, `crossfade = 5000 ms`, `target = 1000000 ms`.
src/main.py contradicts this: its chunk-building `while` loop resets
`current_audio = audio` before re-testing `len(current_audio) < target_ms`,
so on that scenario the test stays true forever and the invocation never
returns (`none` for every amount of fuel, first conjunct).  src/converter.py
does terminate there, with exactly 5 combine operations (well under 20),
as the second conjunct records. -/
theorem claim2_termination :
    (∀ fuel, mainLoopSong (List.replicate 200000 (0 : ℚ)) 1000000 5000 fuel = none) ∧
    (∃ buf, converterLoopSong (List.replicate 200000 (0 : ℚ)) 1000000 5000 =
      .ok (buf, 5)) := by
  constructor
  · intro fuel
    have hspin := mainBuildChunks_spin (List.replicate 200000 (0 : ℚ)) 1000000 5000
      (by norm_num) (by norm_num) fuel [] [] 1
    unfold mainLoopSong
    rw [hspin]
  · obtain ⟨buf, hbuf, _⟩ :=
      converter_ok (List.replicate 200000 (0 : ℚ)) 1000000 5000 (by norm_num)
    have h5 : 1000000 / ((List.replicate 200000 (0 : ℚ)).length - 5000) = 5 := by
      norm_num
    rw [h5] at hbuf
    exact ⟨buf, hbuf⟩

/-! ### Claim C3: no-op short target -/

/-- Claim C3 counterexample: with `d0 = 10 ms`, `crossfade = 8 ms`,
`targetMs = 10 ms` we have `targetMs ≤ d0`, yet src/converter.py's loop_song
performs 5 combine operations (`num_loops = max(1, int(10/2)+1) = 6`), not
zero as the claim demands.  The result is mapped to (duration, combine
count): the run succeeds with duration 10 after 5 combines. -/
theorem claim3_counterexample :
    (converterLoopSong (List.replicate 10 (0 : ℚ)) 10 8).map
      (fun p => (p.1.length, p.2)) = .ok (10, 5) ∧ (5 : ℕ) ≠ 0 :=
  ⟨rfl, by decide⟩

/-- Claim C3 (amended): src/converter.py's loop_song performs zero combine
operations and returns exactly the trimmed source only when the target is
below one effective unit, `targetMs < d0 - crossfade`; for
`d0 - crossfade ≤ targetMs ≤ d0` it still performs `⌊targetMs/(d0-c)⌋ ≥ 1`
combines before trimming.  (src/main.py's variant instead fails outright for
`targetMs ≤ d0`, compare the C1 counterexample.) -/
theorem claim3_no_combine (audio : List ℚ) (targetMs c : ℕ)
    (hc : c < audio.length) (hT : targetMs < audio.length - c) :
    converterLoopSong audio targetMs c = .ok (convTrim audio (targetMs : ℤ), 0) := by
  have hne : ((audio.length : ℤ) - (c : ℤ)) ≠ 0 := by omega
  have hq : (targetMs : ℤ).tdiv ((audio.length : ℤ) - (c : ℤ)) = 0 :=
    Int.tdiv_eq_zero_of_lt (by omega) (by omega)
  unfold converterLoopSong
  simp only [if_neg hne, hq]
  norm_num [appendChain]

/-- Claim C3 witness: a concrete input below one effective unit where the
converter indeed performs no combine and returns the trimmed source. -/
theorem claim3_witness :
    converterLoopSong [(0 : ℚ), 0, 0, 0, 0] 2 2 =
      .ok (convTrim [(0 : ℚ), 0, 0, 0, 0] (2 : ℤ), 0) :=
  claim3_no_combine [(0 : ℚ), 0, 0, 0, 0] 2 2 (by decide) (by decide)

/-! ### Claim C4: degenerate rejection -/

/-- Claim C4 counterexample: with `crossfade = 11 ms ≥ d0 = 10 ms` the claim
demands a DegenerateLoop failure for every target, reported before any
combine.  src/converter.py instead succeeds silently (`num_loops` collapses
to 1 because `int(target/negative)` is nonpositive), returning the source
unchanged with zero combine operations and no error of any kind. -/
theorem claim4_counterexample :
    converterLoopSong (List.replicate 10 (0 : ℚ)) 100 11 =
      .ok (List.replicate 10 0, 0) := by
  rfl

/-- Claim C4 (amended): neither variant validates the crossfade against the
source duration up front.  In src/converter.py, `crossfade = d0` fails with
a ZeroDivisionError-backed RuntimeError (not a DegenerateLoop report), while
`crossfade > d0` does not fail at all: the call silently succeeds with the
source trimmed to the target, performing zero combines.  (In src/main.py the
failure, when it happens at all, is raised by the first combine attempt
rather than before it.) -/
theorem claim4_no_degenerate_check (audio : List ℚ) (targetMs c : ℕ)
    (h : audio.length ≤ c) :
    converterLoopSong audio targetMs c =
      if audio.length = c then .error .zeroDivision
      else .ok (convTrim audio (targetMs : ℤ), 0) := by
  rcases Nat.lt_or_ge audio.length c with hlt | hge
  · rw [if_neg (by omega), converter_degenerate audio targetMs c hlt]
  · have heq : audio.length = c := by omega
    rw [if_pos heq, converter_zeroDivision audio targetMs c heq]

/-- Claim C4 witness: concrete instantiation of the amended statement at a
crossfade strictly longer than the source. -/
theorem claim4_witness :
    converterLoopSong [(0 : ℚ), 0] 7 3 =
      if ([(0 : ℚ), 0]).length = 3 then .error .zeroDivision
      else .ok (convTrim [(0 : ℚ), 0] (7 : ℤ), 0) :=
  claim4_no_degenerate_check [(0 : ℚ), 0] 7 3 (by decide)

/-! ### Claim C5: crossfade length invariant -/

/-- Claim C5: for all valid inputs with `0 ≤ c ≤ min(duration(a), duration(b))`,
the crossfade-combine of `a` and `b` succeeds and its duration is exactly
`duration(a) + duration(b) - c`. -/
theorem claim5_combine_duration (a b : List ℚ) (c : ℕ)
    (ha : c ≤ a.length) (hb : c ≤ b.length) :
    ∃ out, pydubAppend a b c = .ok out ∧
      out.length = a.length + b.length - c :=
  pydubAppend_ok a b c ha hb

/-- Claim C5 witness: concrete instantiation at two 2 ms buffers and a 1 ms
crossfade, giving a 3 ms result. -/
theorem claim5_witness :
    ∃ out, pydubAppend [(1 : ℚ), 2] [(3 : ℚ), 4] 1 = .ok out ∧
      out.length = ([(1 : ℚ), 2]).length + ([(3 : ℚ), 4]).length - 1 :=
  claim5_combine_duration [(1 : ℚ), 2] [(3 : ℚ), 4] 1 (by decide) (by decide)

/-! ### Claim C6: chunk selection -/

/-- Claim C6 counterexample: three chunks built from a 10 ms source with a
5 ms crossfade have nominal `chunk_size = 100 ms` and actual duration
`10 + 9*(10-5) = 55 ms` each.  At `target = 190 ms` the code selects the
prefix of 2 chunks (it maximises `i * (chunk_size - crossfade) = 95 i`),
while the claim's cumulative-effective-duration rule over the persisted
chunks (`55 + 50 (k-1) ≤ 190`) selects all 3: the two selection rules
disagree. -/
theorem claim6_counterexample :
    mainSelect [1, 2, 3] 100 5 190 = [1, 2] ∧
      claimSelect [1, 2, 3] 55 5 190 = [1, 2, 3] ∧
      ([1, 2] : List ℕ) ≠ [1, 2, 3] := by
  refine ⟨?_, ?_, ?_⟩ <;> decide

/-- Claim C6 (amended): the selection loop of src/main.py picks the largest
prefix `k` of the chunk list with `k * (chunk_size - crossfade) ≤ target`,
charging one crossfade to every chunk including the first and using the
nominal chunk size (10 source durations) rather than each persisted chunk's
actual duration; equivalently it returns
`chunks.take (min (len chunks) (target / (chunk_size - crossfade)))`.
(Moreover, for targets above the source duration the selection step is never
reached, because chunk building does not terminate — see C2.) -/
theorem claim6_selection (chunks : List ℕ) (chunkSize c targetMs : ℕ)
    (h : c < chunkSize) :
    mainSelect chunks chunkSize c targetMs =
      chunks.take (min chunks.length (targetMs / (chunkSize - c))) :=
  mainSelect_closed chunks chunkSize c targetMs h

/-- Claim C6 witness: the closed form evaluated on the counterexample's
inputs. -/
theorem claim6_witness :
    mainSelect [1, 2, 3] 100 5 190 =
      ([1, 2, 3] : List ℕ).take (min ([1, 2, 3] : List ℕ).length (190 / (100 - 5))) :=
  claim6_selection [1, 2, 3] 100 5 190 (by decide)

/-! ### Claim C7: temporary chunk cleanup -/

/-- Claim C7: on every terminating run of src/main.py's loop_song, no
temporary chunk file remains on disk when the invocation returns (the
cleanup loop removes every file recorded in `chunks`, and every exported
chunk is recorded there).  Note the caveat recorded by C2: runs that build
at least one chunk never terminate, so terminating runs never have chunk
files to clean; the theorem covers all exit paths of the model. -/
theorem claim7_cleanup (audio : List ℚ) (targetMs c fuel : ℕ) (r : MainResult)
    (hr : mainLoopSong audio targetMs c fuel = some r) : r.disk = [] :=
  mainLoopSong_disk audio targetMs c fuel r hr

/-- Claim C7 witness: a concrete terminating run (source 1 ms, target 0 ms)
returns with an empty disk. -/
theorem claim7_witness : (⟨false, none, []⟩ : MainResult).disk = [] :=
  claim7_cleanup [(0 : ℚ)] 0 0 1 ⟨false, none, []⟩ rfl

/-! ### Claim C8: error propagation -/

/-- Claim C8 counterexample: with `crossfade = 12 ms > d0 = 10 ms` (a
validation failure the spec says must surface) and `target = 50 ms`,
src/converter.py's loop_song raises nothing and silently succeeds with the
10 ms source as output — a silent fallback to a reduced result, against the
claim that no failure is converted into a silent success. -/
theorem claim8_counterexample :
    converterLoopSong (List.replicate 10 (0 : ℚ)) 50 12 =
      .ok (List.replicate 10 0, 0) := by
  rfl

/-- Claim C8 (amended): errors that src/converter.py's loop_song actually
raises are all surfaced (wrapped in a RuntimeError): the run returns an
error exactly when `crossfade = d0` (the ZeroDivisionError case), and
otherwise succeeds.  In particular no raised error is swallowed — but the
degenerate condition `crossfade > d0` never raises at all and instead yields
a silently reduced output (see the counterexample). -/
theorem claim8_error_surface (audio : List ℚ) (targetMs c : ℕ) :
    (∃ e, converterLoopSong audio targetMs c = .error e) ↔ audio.length = c := by
  constructor
  · rintro ⟨e, he⟩
    by_contra hne
    rcases Nat.lt_or_ge audio.length c with hlt | hge
    · rw [converter_degenerate audio targetMs c hlt] at he
      exact Except.noConfusion he
    · have hlt2 : c < audio.length := by omega
      obtain ⟨buf, hbuf, _⟩ := converter_ok audio targetMs c hlt2
      rw [hbuf] at he
      exact Except.noConfusion he
  · intro heq
    exact ⟨.zeroDivision, converter_zeroDivision audio targetMs c heq⟩

/-! ### Claim C9: trim contract -/

/-- Claim C9 counterexample: the repository's trim (the slicing step of
src/converter.py, lines 74-76) does not fail with InvalidDuration on a
negative bound.  On a 3 ms buffer with `maxMs = -1`, Python slice semantics
return the 2 ms wrap-around prefix instead of raising. -/
theorem claim9_counterexample :
    convTrim [(0 : ℚ), 1, 2] (-1) = [0, 1] := by
  rfl

/-- Claim C9 (amended): trim returns the prefix of `a` of length `maxMs` and
returns `a` unchanged when `duration(a) ≤ maxMs`; but for `maxMs < 0` it does
not fail — Python slice semantics yield the prefix of length
`max(0, duration(a) + maxMs)`. -/
theorem claim9_trim (a : List ℚ) (m : ℤ) :
    (0 ≤ m → convTrim a m = a.take m.toNat) ∧
    ((a.length : ℤ) ≤ m → convTrim a m = a) ∧
    (m < 0 → convTrim a m = a.take ((a.length : ℤ) + m).toNat) := by
  refine ⟨?_, ?_, ?_⟩
  · intro hm
    by_cases hlt : m < (a.length : ℤ)
    · rw [convTrim, if_pos hlt, pySliceStop, if_neg (by omega)]
    · rw [convTrim, if_neg hlt]
      exact (List.take_of_length_le (by omega)).symm
  · intro hm
    rw [convTrim, if_neg (by omega)]
  · intro hm
    rw [convTrim, if_pos (by omega), pySliceStop, if_pos hm]

/-- Claim C9 witness: the negative-bound clause instantiated on a 4 ms
buffer with `maxMs = -2`, giving the 2 ms prefix. -/
theorem claim9_witness :
    convTrim [(0 : ℚ), 1, 2, 3] (-2) =
      ([(0 : ℚ), 1, 2, 3]).take (((([(0 : ℚ), 1, 2, 3]).length : ℤ) + (-2)).toNat) :=
  (claim9_trim [(0 : ℚ), 1, 2, 3] (-2)).2.2 (by decide)

/-! ### Claim C10: combine-operation count of the naive variant -/

/-- Claim C10: in src/converter.py's loop_song, for every source strictly
longer than the crossfade, exactly `max(1, ⌊target/(d0 - c)⌋ + 1) - 1`
crossfade-append operations are performed before trimming (first conjunct,
with Python's float division modelled as exact integer division), and each
append extends the accumulator by exactly `d0 - c` milliseconds (second
conjunct: after `i` appends the accumulator has duration `d0 + i*(d0 - c)`). -/
theorem claim10_combine_count (audio : List ℚ) (targetMs c : ℕ)
    (h : c < audio.length) :
    (∃ buf, converterLoopSong audio targetMs c =
        .ok (buf, max 1 (targetMs / (audio.length - c) + 1) - 1)) ∧
    (∀ i, ∃ b, appendChain audio audio c i = .ok (b, i) ∧
        b.length = audio.length + i * (audio.length - c)) := by
  constructor
  · obtain ⟨buf, hbuf, _⟩ := converter_ok audio targetMs c h
    have hm0 : ∀ q : ℕ, max 1 (q + 1) - 1 = q := fun q => by omega
    have hm : max 1 (targetMs / (audio.length - c) + 1) - 1 =
        targetMs / (audio.length - c) := hm0 _
    rw [hm]
    exact ⟨buf, hbuf⟩
  · intro i
    exact appendChain_ok audio audio c h.le h.le i

/-- Claim C10 witness: concrete instantiation at `d0 = 3 ms`, `c = 1 ms`,
`target = 5 ms`, where `max(1, ⌊5/2⌋ + 1) - 1 = 2` appends run. -/
theorem claim10_witness :
    (∃ buf, converterLoopSong [(0 : ℚ), 0, 0] 5 1 =
        .ok (buf, max 1 (5 / (([(0 : ℚ), 0, 0]).length - 1) + 1) - 1)) ∧
    (∀ i, ∃ b, appendChain [(0 : ℚ), 0, 0] [(0 : ℚ), 0, 0] 1 i = .ok (b, i) ∧
        b.length = ([(0 : ℚ), 0, 0]).length + i * (([(0 : ℚ), 0, 0]).length - 1)) :=
  claim10_combine_count [(0 : ℚ), 0, 0] 5 1 (by decide)
